import Mathlib

set_option maxRecDepth 2000

/-!
Shallow embedding of `sg/data/sintef/eb_userloads.py` (the lazy overlay
cache over an HDF5 backing store, and the aggregation helpers built on it),
together with theorems settling the specification claims.

Modelling conventions:
* User identifiers and timestamps are natural numbers.
* A pandas time series is a list of (timestamp, value) pairs with
  strictly increasing timestamps; a value is `Option ℚ`, `none` standing
  for NaN (which pandas produces when `+` aligns two series whose
  timestamp indices differ).
* The HDF5 backing store (`pd.HDFStore`) is an immutable record: the
  identifier set stored under the "user_ids" key, and one series per
  identifier ("id_<n>" keys), modelled as a total function.
* The `UserLoads` object is a record: the backing store, the `_loads`
  overlay dict (modelled extensionally as `UserId → Option TimeSeries`),
  and a ghost log `storeReads` of every read performed against the
  backing store, used to state "exactly one backing-store read" claims.
* Python exceptions are modelled by `PyError`; every method returns a
  pair of an `Except` result and the state at the moment of return or
  raise (a raise leaves the object state as it was at the raise point).
-/

abbrev UserId := Nat
abbrev Timestamp := Nat

/-- A pandas series: (timestamp, value) pairs; `none` models NaN. -/
abbrev TimeSeries := List (Timestamp × Option ℚ)

/-- Python exceptions raised by the code under study.
`keyError` is raised by `read`/`__setitem__`/`pop` on an invalid user id
(and by `dict.pop` on a missing key); `attributeError` is raised when a
nonexistent attribute is accessed; `indexError` is raised by subscripting
an empty list (`series[0]` in `total_load`). -/
inductive PyError where
  | keyError
  | attributeError
  | indexError
deriving DecidableEq, Repr

deriving instance DecidableEq for Except

/-- The opened HDF5 store: the "user_ids" entry and the per-user series
entries (`id_<n>`). Immutable, read-only. -/
structure Store where
  userIds : List UserId
  series : UserId → TimeSeries

/-- The `UserLoads` object: backing store handle, the `_loads` overlay
dict, and a ghost log of backing-store reads (each element is one
`self._store["id_" + str(user_id)]` access). -/
structure UserLoads where
  store : Store
  loads : UserId → Option TimeSeries
  storeReads : List UserId

/-- `UserLoads.__init__`: open the store, load user ids, `_loads = dict()`. -/
def UserLoads.init (st : Store) : UserLoads :=
  { store := st, loads := fun _ => none, storeReads := [] }

/-- `UserLoads.read` (eb_userloads.py:45-56): validate the id against
`user_ids` (KeyError if invalid), then read the series from the HDF5
store, cache it under the id, and return it. -/
def UserLoads.read (s : UserLoads) (user_id : UserId) :
    Except PyError TimeSeries × UserLoads :=
  if user_id ∈ s.store.userIds then
    let user_load := s.store.series user_id
    (Except.ok user_load,
      { s with
        loads := fun k => if k = user_id then some user_load else s.loads k,
        storeReads := s.storeReads ++ [user_id] })
  else
    (Except.error PyError.keyError, s)

/-- `UserLoads.__getitem__` (eb_userloads.py:66-69): return the cached
value if present, otherwise delegate to `read`. -/
def UserLoads.getItem (s : UserLoads) (user_id : UserId) :
    Except PyError TimeSeries × UserLoads :=
  match s.loads user_id with
  | some v => (Except.ok v, s)
  | none => s.read user_id

/-- `UserLoads.__setitem__` (eb_userloads.py:71-79): validate the id
against `user_ids` (KeyError if invalid), then overwrite the overlay
entry; the store is not touched. -/
def UserLoads.setItem (s : UserLoads) (user_id : UserId) (user_load : TimeSeries) :
    Except PyError Unit × UserLoads :=
  if user_id ∈ s.store.userIds then
    (Except.ok (),
      { s with loads := fun k => if k = user_id then some user_load else s.loads k })
  else
    (Except.error PyError.keyError, s)

/-- `UserLoads.pop` (eb_userloads.py:81-89): validate the id (KeyError if
invalid); if not cached, `read` it first; then `dict.pop` the overlay
entry and return it. -/
def UserLoads.pop (s : UserLoads) (user_id : UserId) :
    Except PyError TimeSeries × UserLoads :=
  if user_id ∈ s.store.userIds then
    let s₁ := if (s.loads user_id).isSome then s else (s.read user_id).2
    match s₁.loads user_id with
    | some v =>
        (Except.ok v, { s₁ with loads := fun k => if k = user_id then none else s₁.loads k })
    | none => (Except.error PyError.keyError, s₁)
  else
    (Except.error PyError.keyError, s)

/-- Loop body of `UserLoads.read_all`: `for user_id in ids: self.read(user_id)`,
propagating a raised exception. -/
def readAllLoop : UserLoads → List UserId → Except PyError Unit × UserLoads
  | s, [] => (Except.ok (), s)
  | s, user_id :: rest =>
    match s.read user_id with
    | (Except.ok _, s') => readAllLoop s' rest
    | (Except.error e, s') => (Except.error e, s')

/-- `UserLoads.read_all` (eb_userloads.py:58-64): read every user id's
series from the store. -/
def UserLoads.readAll (s : UserLoads) : Except PyError Unit × UserLoads :=
  readAllLoop s s.store.userIds

/-- `UserLoads.__contains__` (eb_userloads.py:109-110): the body is
`return user_id in self.user_id`. The class has no attribute `user_id`
(the property is `user_ids`), so this access raises AttributeError on
every call, before any membership test happens. -/
def UserLoads.contains (s : UserLoads) (_user_id : UserId) :
    Except PyError Bool × UserLoads :=
  (Except.error PyError.attributeError, s)

/-- The value `__getitem__` returns for a valid id in state `s`
(cached value if present, else the backing store's series). -/
def UserLoads.getValue (s : UserLoads) (user_id : UserId) : TimeSeries :=
  (s.loads user_id).getD (s.store.series user_id)

/-! ### Aggregation helpers -/

/-- Pandas label slicing `series[a:b]` on a monotone timestamp index:
keep the entries whose timestamp lies in `[a, b]`, both bounds inclusive. -/
def sliceSeries (ts : TimeSeries) (a b : Timestamp) : TimeSeries :=
  ts.filter (fun p => decide (a ≤ p.1) && decide (p.1 ≤ b))

/-- Pandas addition of two scalar values; NaN (`none`) propagates. -/
def addVal : Option ℚ → Option ℚ → Option ℚ
  | some x, some y => some (x + y)
  | _, _ => none

/-- Merge step for `addSeries`: `p` is the left head still to be placed,
`rest` merges the left tail with a given right-hand series. Structural
recursion on the right-hand series, so that the kernel can evaluate
concrete additions. -/
def addSeriesGo (p : Timestamp × Option ℚ)
    (rest : TimeSeries → TimeSeries) : TimeSeries → TimeSeries
  | [] => (p.1, none) :: rest []
  | q :: qs =>
    if p.1 < q.1 then (p.1, none) :: rest (q :: qs)
    else if q.1 < p.1 then (q.1, none) :: addSeriesGo p rest qs
    else (p.1, addVal p.2 q.2) :: rest qs

/-- Pandas `+` on two series with sorted timestamp indices: align on the
union of the indices; a timestamp present on only one side yields NaN. -/
def addSeries : TimeSeries → TimeSeries → TimeSeries
  | [], qs => qs.map (fun q => (q.1, (none : Option ℚ)))
  | p :: ps, qs => addSeriesGo p (addSeries ps) qs

/-- The list comprehension in `total_load` (eb_userloads.py:192):
`[userloads[user][period[0]:period[1]] for user in user_ids]` —
sequential `__getitem__` calls threading the cache state, each result
sliced to the period. -/
def totalLoadSlices : UserLoads → List UserId → Timestamp × Timestamp →
    Except PyError (List TimeSeries) × UserLoads
  | s, [], _ => (Except.ok [], s)
  | s, user_id :: rest, period =>
    match s.getItem user_id with
    | (Except.error e, s') => (Except.error e, s')
    | (Except.ok v, s') =>
      match totalLoadSlices s' rest period with
      | (Except.error e, s'') => (Except.error e, s'')
      | (Except.ok vs, s'') =>
          (Except.ok (sliceSeries v period.1 period.2 :: vs), s'')

/-- `total_load` (eb_userloads.py:190-196): build the sliced series list,
take `series[0].copy()` (IndexError when the list is empty), and fold the
rest in by `+=`. -/
def total_load (userloads : UserLoads) (user_ids : List UserId)
    (period : Timestamp × Timestamp) :
    Except PyError TimeSeries × UserLoads :=
  match totalLoadSlices userloads user_ids period with
  | (Except.error e, s') => (Except.error e, s')
  | (Except.ok [], s') => (Except.error PyError.indexError, s')
  | (Except.ok (first :: rest), s') =>
      (Except.ok (rest.foldl addSeries first), s')

/-- `experiment_periods` (eb_userloads.py:116-131): the two fixed
experiment windows, timestamps encoded as YYYYMMDDHHMM numerals. -/
def experiment_periods : (Timestamp × Timestamp) × (Timestamp × Timestamp) :=
  ((200402010000, 200507010000), (200510010000, 200610010000))

/-- `total_load_in_experiment_periods` (eb_userloads.py:312-316):
`[total_load(userloads, user_ids, period) for period in periods]`. -/
def total_load_in_experiment_periods (userloads : UserLoads)
    (user_ids : List UserId) :
    Except PyError (List TimeSeries) × UserLoads :=
  match total_load userloads user_ids experiment_periods.1 with
  | (Except.error e, s₁) => (Except.error e, s₁)
  | (Except.ok t₁, s₁) =>
    match total_load s₁ user_ids experiment_periods.2 with
    | (Except.error e, s₂) => (Except.error e, s₂)
    | (Except.ok t₂, s₂) => (Except.ok [t₁, t₂], s₂)

/-- Pandas `l / k`: element-wise scalar division; NaN propagates. -/
def divSeries (ts : TimeSeries) (k : ℚ) : TimeSeries :=
  ts.map (fun p => (p.1, p.2.map (fun x => x / k)))

/-- The subset-drawing expression of `mean_experiment_load_for_user_subset`
(eb_userloads.py:323-325): with an explicit seed, permute `all_ids` with a
generator freshly seeded from `seed` alone and keep the first `count`
elements, leaving the global numpy generator state untouched; with no
seed, draw one from the global generator (advancing its state) and use
that. `perm` models the external primitive
`np.random.RandomState(seed).permutation`, a pure function of the seed
and the input ordering; `npRandint` models `np.random.randint(1, 2**16)`
on the global generator state `g`. -/
def random_identifier_subset (perm : Nat → List UserId → List UserId)
    (npRandint : Nat → Nat × Nat) (g : Nat)
    (all_ids : List UserId) (count : Nat) (seed : Option Nat) :
    List UserId × Nat :=
  match seed with
  | some s => ((perm s all_ids).take count, g)
  | none =>
    let sg := npRandint g
    ((perm sg.1 all_ids).take count, sg.2)

/-- `mean_experiment_load_for_user_subset` (eb_userloads.py:318-326):
draw the seeded random subset of the cache's user ids, total it over the
experiment periods, and divide each total by `len(user_ids)` — the
length of the drawn subset. -/
def mean_experiment_load_for_user_subset
    (perm : Nat → List UserId → List UserId) (npRandint : Nat → Nat × Nat)
    (g : Nat) (loads : UserLoads) (num_users : Nat) (seed : Option Nat) :
    (Except PyError (List TimeSeries) × UserLoads) × Nat :=
  let drawn := random_identifier_subset perm npRandint g
      loads.store.userIds num_users seed
  let user_ids := drawn.1
  match total_load_in_experiment_periods loads user_ids with
  | (Except.error e, s') => ((Except.error e, s'), drawn.2)
  | (Except.ok ls, s') =>
      ((Except.ok (ls.map (fun l => divSeries l (user_ids.length : ℚ))), s'),
        drawn.2)

/-! ### The overlay-cache invariant -/

/-- Every key present in the `_loads` overlay is a member of the backing
store's identifier set. -/
def CacheInv (s : UserLoads) : Prop :=
  ∀ user_id : UserId, (s.loads user_id).isSome → user_id ∈ s.store.userIds

/-- The cache-evolution relation induced by lazy materialization: the
store is untouched, and each overlay entry is either untouched or was
absent and is now the backing store's series. -/
def Evolves (s s' : UserLoads) : Prop :=
  s'.store = s.store ∧
  ∀ id : UserId, s'.loads id = s.loads id ∨
    (s.loads id = none ∧ s'.loads id = some (s.store.series id))

/-! ### Concrete demonstration store, used by witnesses -/

/-- A small concrete backing store with two users whose series lie inside
the first experiment period. -/
def demoStore : Store :=
  { userIds := [1, 2],
    series := fun id =>
      if id = 1 then [(200402010000, some 2), (200402010001, some 3)]
      else if id = 2 then [(200402010000, some 5), (200402010001, some 7)]
      else [] }

/-- A freshly constructed cache over `demoStore` (empty overlay). -/
def demoCache : UserLoads := UserLoads.init demoStore

/-- A concrete instantiation of the external permutation primitive
(`np.random.RandomState(seed).permutation`): the identity rearrangement,
for witnesses and counterexamples. -/
def permAsIs : Nat → List UserId → List UserId := fun _ l => l

/-- A concrete instantiation of the external global-generator draw
(`np.random.randint(1, 2**16)`): returns a value and the advanced
generator state. -/
def npRandintModel : Nat → Nat × Nat := fun g => (g % 65535 + 1, g + 1)

/-! ### C6: element-wise sum characterization of `total_load` -/

/-- A series with timestamp index `T` and rational (non-NaN) values `vs`. -/
def withIndex (T : List Timestamp) (vs : List ℚ) : TimeSeries :=
  T.zip (vs.map some)

/-- Position-wise addition of two rational value lists. -/
def zipAdd (xs ys : List ℚ) : List ℚ :=
  List.zipWith (fun a b => a + b) xs ys

/-- The element-wise sum of the value lists in `vss`: position `i` holds
the sum over `vss` of the `i`-th value. -/
def columnSums (n : Nat) (vss : List (List ℚ)) : List ℚ :=
  (List.range n).map (fun i => (vss.map (fun vs => vs.getD i 0)).sum)

lemma read_snd_store (s : UserLoads) (id : UserId) :
    (s.read id).2.store = s.store := by
  unfold UserLoads.read
  split <;> rfl

lemma cacheInv_read (s : UserLoads) (id : UserId) (h : CacheInv s) :
    CacheInv (s.read id).2 := by
  unfold UserLoads.read
  split
  · rename_i hmem
    intro k hk
    by_cases hk1 : k = id
    · subst hk1; exact hmem
    · simp only [hk1, if_neg, ite_false] at hk
      exact h k hk
  · exact h

lemma cacheInv_readAllLoop : ∀ (ids : List UserId) (s : UserLoads),
    CacheInv s → CacheInv (readAllLoop s ids).2
  | [], _, h => h
  | id :: rest, s, h => by
    have hr := cacheInv_read s id h
    unfold readAllLoop
    cases he : s.read id with
    | mk r s' =>
      rw [he] at hr
      cases r with
      | ok a => exact cacheInv_readAllLoop rest s' hr
      | error e => exact hr

lemma Evolves.refl (s : UserLoads) : Evolves s s :=
  ⟨Eq.refl _, fun _ => Or.inl (Eq.refl _)⟩

lemma Evolves.trans {s₁ s₂ s₃ : UserLoads} (h₁ : Evolves s₁ s₂)
    (h₂ : Evolves s₂ s₃) : Evolves s₁ s₃ := by
  refine ⟨h₂.1.trans h₁.1, fun id => ?_⟩
  rcases h₂.2 id with h | ⟨hn, hs⟩
  · rw [h]; exact h₁.2 id
  · rcases h₁.2 id with h | ⟨hn', hs'⟩
    · rw [h] at hn
      exact Or.inr ⟨hn, by rw [hs, h₁.1]⟩
    · rw [hs'] at hn; cases hn

lemma evolves_read (s : UserLoads) (id : UserId) (h : s.loads id = none) :
    Evolves s (s.read id).2 := by
  unfold UserLoads.read
  split
  · refine ⟨Eq.refl _, fun k => ?_⟩
    by_cases hk : k = id
    · subst hk
      exact Or.inr ⟨h, by simp⟩
    · exact Or.inl (by simp [hk])
  · exact Evolves.refl s

lemma evolves_getItem (s : UserLoads) (id : UserId) :
    Evolves s (s.getItem id).2 := by
  unfold UserLoads.getItem
  cases h : s.loads id with
  | some v => exact Evolves.refl s
  | none => exact evolves_read s id h

lemma evolves_totalLoadSlices : ∀ (ids : List UserId) (s : UserLoads)
    (period : Timestamp × Timestamp),
    Evolves s (totalLoadSlices s ids period).2
  | [], s, _ => Evolves.refl s
  | id :: rest, s, period => by
    have h₁ := evolves_getItem s id
    rcases he : s.getItem id with ⟨r, s'⟩
    rw [he] at h₁
    have h₂ := evolves_totalLoadSlices rest s' period
    rcases ht : totalLoadSlices s' rest period with ⟨r₂, s''⟩
    rw [ht] at h₂
    simp only [totalLoadSlices, he]
    cases r with
    | error e => exact h₁
    | ok v =>
      simp only [ht]
      cases r₂ with
      | error e => exact h₁.trans h₂
      | ok vs => exact h₁.trans h₂

lemma evolves_total_load (s : UserLoads) (ids : List UserId)
    (period : Timestamp × Timestamp) :
    Evolves s (total_load s ids period).2 := by
  have h := evolves_totalLoadSlices ids s period
  unfold total_load
  cases he : totalLoadSlices s ids period with
  | mk r s' =>
    rw [he] at h
    cases r with
    | error e => exact h
    | ok vs => cases vs with
      | nil => exact h
      | cons a t => exact h

lemma demoCache_inv : CacheInv demoCache := by
  intro k hk
  simp [demoCache, UserLoads.init] at hk

lemma cacheInv_getItem (s : UserLoads) (id : UserId) (h : CacheInv s) :
    CacheInv (s.getItem id).2 := by
  unfold UserLoads.getItem
  cases hl : s.loads id with
  | some v => exact h
  | none => exact cacheInv_read s id h

lemma cacheInv_setItem (s : UserLoads) (id : UserId) (v : TimeSeries)
    (h : CacheInv s) : CacheInv (s.setItem id v).2 := by
  unfold UserLoads.setItem
  split
  · rename_i hmem
    intro k hk
    by_cases hk1 : k = id
    · subst hk1; exact hmem
    · simp only [hk1, ite_false] at hk
      exact h k hk
  · exact h

lemma cacheInv_pop (s : UserLoads) (id : UserId) (h : CacheInv s) :
    CacheInv (s.pop id).2 := by
  have h₁ : CacheInv (if (s.loads id).isSome then s else (s.read id).2) := by
    split
    · exact h
    · exact cacheInv_read s id h
  unfold UserLoads.pop
  split
  · dsimp only
    split
    · rename_i v hm
      intro k hk
      by_cases hk1 : k = id
      · subst hk1; simp at hk
      · simp only [hk1, ite_false] at hk
        exact h₁ k hk
    · exact h₁
  · exact h

/-! ### The claims -/

/-- C1: for an identifier that is a member of the store's identifier set
but not yet present in the `_loads` overlay, `__getitem__` performs
exactly one backing-store read (the read log is extended by exactly that
one identifier), caches the unmodified result under the identifier, and
returns it; a subsequent `__getitem__` of the same identifier returns the
cached value and leaves the state — in particular the read log —
unchanged, so no further backing-store read happens. -/
theorem claim_C1_lazy_read_once (s : UserLoads) (id : UserId)
    (hmem : id ∈ s.store.userIds) (hunc : s.loads id = none) :
    (s.getItem id).1 = Except.ok (s.store.series id) ∧
    (s.getItem id).2.loads id = some (s.store.series id) ∧
    (s.getItem id).2.storeReads = s.storeReads ++ [id] ∧
    (s.getItem id).2.getItem id = (Except.ok (s.store.series id), (s.getItem id).2) := by
  have h1 : s.getItem id =
      (Except.ok (s.store.series id),
        { s with
          loads := fun k => if k = id then some (s.store.series id) else s.loads k,
          storeReads := s.storeReads ++ [id] }) := by
    unfold UserLoads.getItem UserLoads.read
    rw [hunc]
    simp [hmem]
  rw [h1]
  refine ⟨rfl, by simp, rfl, ?_⟩
  unfold UserLoads.getItem
  simp

theorem claim_C1_witness :
    (1 ∈ demoCache.store.userIds ∧ demoCache.loads 1 = none) ∧
    (demoCache.getItem 1).1 = Except.ok (demoCache.store.series 1) :=
  ⟨⟨by decide, rfl⟩, (claim_C1_lazy_read_once demoCache 1 (by decide) rfl).1⟩

/-- C2: `total_load` over an empty identifier list fails: the list
comprehension yields the empty list and `series[0]` raises IndexError —
the error this code surfaces for the empty-aggregation condition (the
spec's `EmptyIdentifierSet`), distinct from the KeyError used for unknown
identifiers — and no zero series is returned (the result is an error,
not a success), with the cache state untouched. -/
theorem claim_C2_empty_sum (s : UserLoads) (period : Timestamp × Timestamp) :
    total_load s [] period = (Except.error PyError.indexError, s) ∧
    PyError.indexError ≠ PyError.keyError :=
  ⟨rfl, by decide⟩

/-- C3: the body of `UserLoads.__contains__` is
`return user_id in self.user_id`; the class defines the property
`user_ids` but no attribute `user_id`, so every call raises
AttributeError instead of performing the membership test the claim (and
the code's own dict-façade intent) describes. -/
theorem claim_C3_contains_attribute_error (s : UserLoads) (id : UserId) :
    s.contains id = (Except.error PyError.attributeError, s) := rfl

/-- C5: with an explicit seed, the drawn identifier subset is the seeded
permutation truncated to the first `count` elements — a pure function of
the permutation primitive, the seed, the input ordering and `count`; it
does not depend on the global generator state nor on the global
`randint` draw, so two calls with the same seed and the same `all_ids`
ordering return identical sequences. -/
theorem claim_C5_subset_deterministic
    (perm : Nat → List UserId → List UserId)
    (npR₁ npR₂ : Nat → Nat × Nat) (g₁ g₂ : Nat)
    (all_ids : List UserId) (count : Nat) (seed : Nat) :
    (random_identifier_subset perm npR₁ g₁ all_ids count (some seed)).1 =
      (random_identifier_subset perm npR₂ g₂ all_ids count (some seed)).1 := rfl

/-- C7: for a valid identifier, `__setitem__` succeeds and its value is
visible in the overlay; a subsequent `read` (the spec's `force_read`)
ignores the overlay value, returns the backing store's original series,
re-caches it, and a subsequent `__getitem__` returns the backing store's
value, not the assigned one. -/
theorem claim_C7_set_then_force_read (s : UserLoads) (id : UserId)
    (v : TimeSeries) (hmem : id ∈ s.store.userIds)
    (hv : v ≠ s.store.series id) :
    (s.setItem id v).1 = Except.ok () ∧
    (s.setItem id v).2.loads id = some v ∧
    ((s.setItem id v).2.read id).1 = Except.ok (s.store.series id) ∧
    ((s.setItem id v).2.read id).2.loads id = some (s.store.series id) ∧
    (((s.setItem id v).2.read id).2.getItem id).1 = Except.ok (s.store.series id) ∧
    (((s.setItem id v).2.read id).2.getItem id).1 ≠ Except.ok v := by
  have h1 : s.setItem id v =
      (Except.ok (),
        { s with loads := fun k => if k = id then some v else s.loads k }) := by
    unfold UserLoads.setItem
    simp [hmem]
  rw [h1]
  have h2 : ({ s with loads := fun k => if k = id then some v else s.loads k } :
      UserLoads).read id =
      (Except.ok (s.store.series id),
        { s with
          loads := fun k => if k = id then some (s.store.series id)
            else if k = id then some v else s.loads k,
          storeReads := s.storeReads ++ [id] }) := by
    unfold UserLoads.read
    simp [hmem]
  rw [h2]
  refine ⟨rfl, by simp, rfl, by simp, ?_, ?_⟩
  · unfold UserLoads.getItem
    simp
  · unfold UserLoads.getItem
    simp only [ite_true, if_pos]
    intro hcontra
    simp at hcontra
    exact hv hcontra.symm

theorem claim_C7_witness :
    (1 ∈ demoCache.store.userIds ∧ ([] : TimeSeries) ≠ demoCache.store.series 1) ∧
    ((demoCache.setItem 1 []).2.read 1).1 = Except.ok (demoCache.store.series 1) :=
  ⟨⟨by decide, by decide⟩,
    (claim_C7_set_then_force_read demoCache 1 [] (by decide) (by decide)).2.2.1⟩

/-- C8: on a well-formed cache (overlay keys all valid), an identifier
outside the store's identifier set makes `__getitem__`, `__setitem__`
and `pop` all raise KeyError with the state unchanged — in particular
the backing-store read log is unchanged, so the membership check against
the full identifier set happens before any backing-store read. -/
theorem claim_C8_unknown_identifier (s : UserLoads) (id : UserId)
    (v : TimeSeries) (hinv : CacheInv s) (hid : id ∉ s.store.userIds) :
    s.getItem id = (Except.error PyError.keyError, s) ∧
    s.setItem id v = (Except.error PyError.keyError, s) ∧
    s.pop id = (Except.error PyError.keyError, s) ∧
    (s.getItem id).2.storeReads = s.storeReads := by
  have hnone : s.loads id = none := by
    cases h : s.loads id with
    | none => rfl
    | some w => exact absurd (hinv id (by rw [h]; rfl)) hid
  have h1 : s.getItem id = (Except.error PyError.keyError, s) := by
    unfold UserLoads.getItem UserLoads.read
    rw [hnone]
    simp [hid]
  refine ⟨h1, ?_, ?_, by rw [h1]⟩
  · unfold UserLoads.setItem
    simp [hid]
  · unfold UserLoads.pop
    simp [hid]

theorem claim_C8_witness :
    (CacheInv demoCache ∧ 3 ∉ demoCache.store.userIds) ∧
    demoCache.getItem 3 = (Except.error PyError.keyError, demoCache) :=
  ⟨⟨demoCache_inv, by decide⟩,
    (claim_C8_unknown_identifier demoCache 3 [] demoCache_inv (by decide)).1⟩

/-- C9: the overlay-cache invariant — every key present in `_loads` is a
member of the backing store's identifier set — holds for a freshly
constructed cache and is preserved by `__getitem__` (get),
`__setitem__` (set), `read` (force_read), `pop`, and `read_all`. -/
theorem claim_C9_overlay_invariant (st : Store) (s : UserLoads)
    (id : UserId) (v : TimeSeries) (hinv : CacheInv s) :
    CacheInv (UserLoads.init st) ∧
    CacheInv (s.getItem id).2 ∧
    CacheInv (s.setItem id v).2 ∧
    CacheInv (s.read id).2 ∧
    CacheInv (s.pop id).2 ∧
    CacheInv s.readAll.2 := by
  refine ⟨?_, cacheInv_getItem s id hinv, cacheInv_setItem s id v hinv,
    cacheInv_read s id hinv, cacheInv_pop s id hinv,
    cacheInv_readAllLoop s.store.userIds s hinv⟩
  intro k hk
  simp [UserLoads.init] at hk

theorem claim_C9_witness :
    CacheInv demoCache ∧ CacheInv (demoCache.getItem 1).2 :=
  ⟨demoCache_inv,
    (claim_C9_overlay_invariant demoStore demoCache 1 [] demoCache_inv).2.1⟩

/-- C10: `total_load` never changes the value of any existing overlay
entry and never touches the backing store's contents: the state evolves
only by lazy materialization (`Evolves`), and afterwards every cached
entry equals the value `__getitem__` would have returned for that
identifier before the call. -/
theorem claim_C10_no_mutation (s : UserLoads) (ids : List UserId)
    (period : Timestamp × Timestamp) :
    Evolves s (total_load s ids period).2 ∧
    ∀ id : UserId, ((total_load s ids period).2.loads id).isSome →
      (total_load s ids period).2.loads id = some (s.getValue id) := by
  have h := evolves_total_load s ids period
  refine ⟨h, fun id hid => ?_⟩
  rcases h.2 id with heq | ⟨hn, hs⟩
  · rw [heq] at hid ⊢
    unfold UserLoads.getValue
    cases hl : s.loads id with
    | none => rw [hl] at hid; simp at hid
    | some w => rfl
  · rw [hs]
    unfold UserLoads.getValue
    rw [hn]
    rfl

/-- C4 counterexample: over `demoStore` (2 available identifiers) with
`num_users = 3`, the drawn subset is `[1, 2]` (truncation cannot extend
the permutation), and `mean_experiment_load_for_user_subset` divides the
period totals `[7, 10]` by `len(user_ids) = 2`, giving `7/2` and `5` —
not by the requested `count = 3` (which would give `7/3` and `10/3`) as
the claim states. -/
theorem claim_C4_counterexample :
    (mean_experiment_load_for_user_subset permAsIs npRandintModel 0 demoCache 3
        (some 0)).1.1 =
      Except.ok [[(200402010000, some ((7 : ℚ) / 2)), (200402010001, some 5)], []] ∧
    (mean_experiment_load_for_user_subset permAsIs npRandintModel 0 demoCache 3
        (some 0)).1.1 ≠
      Except.ok [[(200402010000, some ((7 : ℚ) / 3)),
        (200402010001, some ((10 : ℚ) / 3))], []] := by
  have h : (mean_experiment_load_for_user_subset permAsIs npRandintModel 0 demoCache 3
      (some 0)).1.1 =
      Except.ok [[(200402010000, some ((7 : ℚ) / 2)), (200402010001, some 5)], []] := by
    norm_num [mean_experiment_load_for_user_subset, random_identifier_subset,
      total_load_in_experiment_periods, total_load, totalLoadSlices,
      UserLoads.getItem, UserLoads.read, demoCache, demoStore, UserLoads.init,
      experiment_periods, sliceSeries, addSeries, addSeriesGo, addVal, divSeries,
      permAsIs, npRandintModel, List.filter, List.take]
  refine ⟨h, ?_⟩
  rw [h]
  intro hc
  injection hc with hc'
  norm_num at hc'

/-- C4 amended: with an explicit seed and a length-preserving permutation
primitive, `mean_experiment_load_for_user_subset` divides each
per-experiment-period total series element-wise by the size of the
actually drawn subset, `min(count, number of available identifiers)` —
which equals the requested `count` only when `count` does not exceed the
number of available identifiers. -/
theorem claim_C4_mean_divides_by_subset_size
    (perm : Nat → List UserId → List UserId) (npR : Nat → Nat × Nat)
    (g : Nat) (loads : UserLoads) (num_users : Nat) (seed : Nat)
    (hperm : (perm seed loads.store.userIds).length = loads.store.userIds.length)
    (ls : List TimeSeries)
    (hok : (total_load_in_experiment_periods loads
        (random_identifier_subset perm npR g loads.store.userIds num_users
          (some seed)).1).1 = Except.ok ls) :
    (mean_experiment_load_for_user_subset perm npR g loads num_users (some seed)).1.1 =
      Except.ok (ls.map (fun l =>
        divSeries l ((min num_users loads.store.userIds.length : Nat) : ℚ))) := by
  unfold mean_experiment_load_for_user_subset
  rcases he : total_load_in_experiment_periods loads
      (random_identifier_subset perm npR g loads.store.userIds num_users
        (some seed)).1 with ⟨r, s'⟩
  rw [he] at hok
  dsimp only at hok ⊢
  rw [he]
  subst hok
  dsimp only
  rw [show (random_identifier_subset perm npR g loads.store.userIds num_users
      (some seed)).1 = (perm seed loads.store.userIds).take num_users from rfl]
  rw [List.length_take, hperm]

theorem claim_C4_witness :
    ((permAsIs 0 demoCache.store.userIds).length = demoCache.store.userIds.length ∧
      (total_load_in_experiment_periods demoCache
        (random_identifier_subset permAsIs npRandintModel 0 demoCache.store.userIds 3
          (some 0)).1).1 =
        Except.ok [[(200402010000, some (7 : ℚ)), (200402010001, some (10 : ℚ))], []]) ∧
    (mean_experiment_load_for_user_subset permAsIs npRandintModel 0 demoCache 3
        (some 0)).1.1 =
      Except.ok ([[(200402010000, some (7 : ℚ)), (200402010001, some (10 : ℚ))], []].map
        (fun l => divSeries l ((min 3 demoCache.store.userIds.length : Nat) : ℚ))) :=
  ⟨⟨rfl, by
      norm_num [total_load_in_experiment_periods, total_load, totalLoadSlices,
        random_identifier_subset, UserLoads.getItem, UserLoads.read, demoCache,
        demoStore, UserLoads.init, experiment_periods, sliceSeries, addSeries,
        addSeriesGo, addVal, permAsIs, npRandintModel, List.filter, List.take]⟩,
    claim_C4_mean_divides_by_subset_size permAsIs npRandintModel 0 demoCache 3 0 rfl
      [[(200402010000, some (7 : ℚ)), (200402010001, some (10 : ℚ))], []]
      (by
        norm_num [total_load_in_experiment_periods, total_load, totalLoadSlices,
          random_identifier_subset, UserLoads.getItem, UserLoads.read, demoCache,
          demoStore, UserLoads.init, experiment_periods, sliceSeries, addSeries,
          addSeriesGo, addVal, permAsIs, npRandintModel, List.filter, List.take])⟩

lemma addSeries_withIndex (T : List Timestamp) :
    ∀ xs ys : List ℚ, xs.length = T.length → ys.length = T.length →
    addSeries (withIndex T xs) (withIndex T ys) = withIndex T (zipAdd xs ys) := by
  induction T with
  | nil =>
    intro xs ys hx hy
    rw [List.length_nil, List.length_eq_zero] at hx hy
    subst hx; subst hy
    rfl
  | cons t T ih =>
    intro xs ys hx hy
    cases xs with
    | nil => simp at hx
    | cons x xs =>
      cases ys with
      | nil => simp at hy
      | cons y ys =>
        have hx' : xs.length = T.length := by
          simpa using hx
        have hy' : ys.length = T.length := by
          simpa using hy
        simp only [withIndex, List.map_cons, List.zip_cons_cons, zipAdd,
          List.zipWith_cons_cons, addSeries, addSeriesGo, lt_irrefl, if_false,
          ite_false, addVal]
        exact congrArg _ (ih xs ys hx' hy')

lemma foldl_addSeries_withIndex (T : List Timestamp) :
    ∀ (vss : List (List ℚ)) (v₀ : List ℚ),
    v₀.length = T.length → (∀ v ∈ vss, v.length = T.length) →
    (vss.map (withIndex T)).foldl addSeries (withIndex T v₀) =
      withIndex T (vss.foldl zipAdd v₀)
  | [], _, _, _ => rfl
  | v :: vss, v₀, h₀, h => by
    simp only [List.map_cons, List.foldl_cons]
    rw [addSeries_withIndex T v₀ v h₀ (h v (by simp))]
    exact foldl_addSeries_withIndex T vss (zipAdd v₀ v)
      (by rw [zipAdd, List.length_zipWith, h₀, h v (by simp)]; exact Nat.min_self _)
      (fun w hw => h w (by simp [hw]))

lemma zipAdd_getD : ∀ (a b : List ℚ) (i : Nat), i < a.length → i < b.length →
    (zipAdd a b).getD i 0 = a.getD i 0 + b.getD i 0
  | [], _, i, ha, _ => by simp at ha
  | _ :: _, [], i, _, hb => by simp at hb
  | x :: a, y :: b, 0, _, _ => rfl
  | x :: a, y :: b, (i+1), ha, hb => by
    simp only [zipAdd, List.zipWith_cons_cons, List.getD_cons_succ]
    exact zipAdd_getD a b i (by simpa using ha) (by simpa using hb)

lemma foldl_zipAdd_length : ∀ (vss : List (List ℚ)) (v₀ : List ℚ),
    (∀ v ∈ vss, v.length = v₀.length) →
    (vss.foldl zipAdd v₀).length = v₀.length
  | [], _, _ => rfl
  | v :: vss, v₀, h => by
    simp only [List.foldl_cons]
    have hlen : (zipAdd v₀ v).length = v₀.length := by
      rw [zipAdd, List.length_zipWith, h v (by simp), Nat.min_self]
    exact (foldl_zipAdd_length vss (zipAdd v₀ v)
      (fun w hw => (h w (by simp [hw])).trans hlen.symm)).trans hlen

lemma foldl_zipAdd_getD : ∀ (vss : List (List ℚ)) (v₀ : List ℚ) (i : Nat),
    (∀ v ∈ vss, v.length = v₀.length) → i < v₀.length →
    (vss.foldl zipAdd v₀).getD i 0 =
      v₀.getD i 0 + (vss.map (fun v => v.getD i 0)).sum
  | [], _, _, _, _ => by simp
  | v :: vss, v₀, i, h, hi => by
    simp only [List.foldl_cons, List.map_cons, List.sum_cons]
    have hlen : (zipAdd v₀ v).length = v₀.length := by
      rw [zipAdd, List.length_zipWith, h v (by simp), Nat.min_self]
    rw [foldl_zipAdd_getD vss (zipAdd v₀ v) i
      (fun w hw => (h w (by simp [hw])).trans hlen.symm) (by rw [hlen]; exact hi)]
    rw [zipAdd_getD v₀ v i hi (by rw [h v (by simp)]; exact hi)]
    ring

lemma foldl_zipAdd_eq_columnSums (vss : List (List ℚ)) (v₀ : List ℚ) (n : Nat)
    (h₀ : v₀.length = n) (h : ∀ v ∈ vss, v.length = n) :
    vss.foldl zipAdd v₀ = columnSums n (v₀ :: vss) := by
  have hl : (vss.foldl zipAdd v₀).length = n :=
    (foldl_zipAdd_length vss v₀ (fun v hv => (h v hv).trans h₀.symm)).trans h₀
  have hr : (columnSums n (v₀ :: vss)).length = n := by
    simp [columnSums]
  refine List.ext_getElem (hl.trans hr.symm) (fun i hi₁ hi₂ => ?_)
  have hin : i < n := hl ▸ hi₁
  have hrhs : (columnSums n (v₀ :: vss))[i] =
      v₀.getD i 0 + (vss.map (fun v => v.getD i 0)).sum := by
    simp [columnSums, List.getElem_map, List.getElem_range]
  rw [hrhs, ← List.getD_eq_getElem _ 0 hi₁]
  exact foldl_zipAdd_getD vss v₀ i (fun v hv => (h v hv).trans h₀.symm) (h₀ ▸ hin)

lemma getItem_evolved (s₀ s : UserLoads) (id : UserId) (hev : Evolves s₀ s)
    (hmem : id ∈ s₀.store.userIds) :
    (s.getItem id).1 = Except.ok (s₀.getValue id) ∧
    Evolves s₀ (s.getItem id).2 := by
  refine ⟨?_, hev.trans (evolves_getItem s id)⟩
  unfold UserLoads.getItem
  cases hl : s.loads id with
  | some v =>
    rcases hev.2 id with heq | ⟨hn, hs⟩
    · rw [hl] at heq
      unfold UserLoads.getValue
      rw [← heq]
      rfl
    · rw [hl] at hs
      unfold UserLoads.getValue
      rw [hn]
      injection hs with hv
      rw [hv]
      rfl
  | none =>
    have hmem' : id ∈ s.store.userIds := by rw [hev.1]; exact hmem
    have hn₀ : s₀.loads id = none := by
      rcases hev.2 id with heq | ⟨hn, hs⟩
      · rw [hl] at heq; exact heq.symm
      · rw [hl] at hs; cases hs
    unfold UserLoads.read
    rw [if_pos hmem']
    unfold UserLoads.getValue
    rw [hn₀, hev.1]
    rfl

lemma totalLoadSlices_ok (s₀ : UserLoads) (period : Timestamp × Timestamp) :
    ∀ (ids : List UserId) (s : UserLoads), Evolves s₀ s →
    (∀ id ∈ ids, id ∈ s₀.store.userIds) →
    (totalLoadSlices s ids period).1 =
      Except.ok (ids.map (fun id =>
        sliceSeries (s₀.getValue id) period.1 period.2)) ∧
    Evolves s₀ (totalLoadSlices s ids period).2
  | [], s, hev, _ => ⟨rfl, hev⟩
  | id :: rest, s, hev, hmem => by
    obtain ⟨h1, h2⟩ := getItem_evolved s₀ s id hev (hmem id (by simp))
    rcases he : s.getItem id with ⟨r, s'⟩
    rw [he] at h1 h2
    dsimp only at h1
    subst h1
    obtain ⟨h3, h4⟩ := totalLoadSlices_ok s₀ period rest s' h2
      (fun i hi => hmem i (by simp [hi]))
    rcases ht : totalLoadSlices s' rest period with ⟨r₂, s''⟩
    rw [ht] at h3 h4
    dsimp only at h3
    subst h3
    refine ⟨?_, ?_⟩
    · simp only [totalLoadSlices, he, ht, List.map_cons]
    · simp only [totalLoadSlices, he, ht]
      exact h4

lemma total_load_sum (s : UserLoads) (ids : List UserId)
    (period : Timestamp × Timestamp) (T : List Timestamp) (L : UserId → List ℚ)
    (hne : ids ≠ [])
    (hmem : ∀ id ∈ ids, id ∈ s.store.userIds)
    (hlen : ∀ id ∈ ids, (L id).length = T.length)
    (hslice : ∀ id ∈ ids,
      sliceSeries (s.getValue id) period.1 period.2 = withIndex T (L id)) :
    (total_load s ids period).1 =
      Except.ok (withIndex T (columnSums T.length (ids.map L))) := by
  cases ids with
  | nil => exact absurd rfl hne
  | cons id₀ rest =>
    obtain ⟨h1, _⟩ := totalLoadSlices_ok s period (id₀ :: rest) s
      (Evolves.refl s) hmem
    rcases he : totalLoadSlices s (id₀ :: rest) period with ⟨r, s'⟩
    rw [he] at h1
    dsimp only at h1
    subst h1
    unfold total_load
    rw [he]
    dsimp only [List.map_cons]
    rw [hslice id₀ (by simp)]
    rw [List.map_congr_left (fun i hi => hslice i (by simp [hi]))]
    rw [show (rest.map fun id => withIndex T (L id)) =
      (rest.map L).map (withIndex T) by rw [List.map_map]; rfl]
    rw [foldl_addSeries_withIndex T (rest.map L) (L id₀) (hlen id₀ (by simp))
      (by intro v hv
          obtain ⟨i, hi, hvi⟩ := List.mem_map.mp hv
          rw [← hvi]
          exact hlen i (by simp [hi]))]
    rw [foldl_zipAdd_eq_columnSums (rest.map L) (L id₀) T.length
      (hlen id₀ (by simp))
      (by intro v hv
          obtain ⟨i, hi, hvi⟩ := List.mem_map.mp hv
          rw [← hvi]
          exact hlen i (by simp [hi]))]

/-- C6: under the spec's alignment assumption — after restriction to the
period, every requested identifier's series carries the same timestamp
index `T` (with rational values `L id`) — `total_load` succeeds and
returns the series over `T` whose value at each position is the sum,
over `ids`, of that identifier's value at the same position (the
element-wise, timestamp-aligned sum of the values `__getitem__` returns);
and the returned series is the same for every permutation of `ids`. -/
theorem claim_C6_sum_and_permutation (s : UserLoads) (ids : List UserId)
    (period : Timestamp × Timestamp) (T : List Timestamp) (L : UserId → List ℚ)
    (hne : ids ≠ [])
    (hmem : ∀ id ∈ ids, id ∈ s.store.userIds)
    (hlen : ∀ id ∈ ids, (L id).length = T.length)
    (hslice : ∀ id ∈ ids,
      sliceSeries (s.getValue id) period.1 period.2 = withIndex T (L id)) :
    (total_load s ids period).1 =
      Except.ok (withIndex T (columnSums T.length (ids.map L))) ∧
    ∀ ids' : List UserId, ids'.Perm ids →
      (total_load s ids' period).1 = (total_load s ids period).1 := by
  have h := total_load_sum s ids period T L hne hmem hlen hslice
  refine ⟨h, fun ids' hp => ?_⟩
  have hne' : ids' ≠ [] := by
    intro hnil
    subst hnil
    exact hne (List.perm_nil.mp hp.symm)
  have h' := total_load_sum s ids' period T L hne'
    (fun i hi => hmem i (hp.mem_iff.mp hi))
    (fun i hi => hlen i (hp.mem_iff.mp hi))
    (fun i hi => hslice i (hp.mem_iff.mp hi))
  rw [h, h']
  have hc : columnSums T.length (ids'.map L) = columnSums T.length (ids.map L) := by
    unfold columnSums
    refine List.map_congr_left (fun i _ => ?_)
    rw [List.map_map, List.map_map]
    exact (hp.map (fun id => (L id).getD i 0)).sum_eq
  rw [hc]

theorem claim_C6_witness :
    ((([1, 2] : List UserId) ≠ [] ∧
      (∀ id ∈ ([1, 2] : List UserId), id ∈ demoCache.store.userIds) ∧
      (∀ id ∈ ([1, 2] : List UserId),
        ((fun id => if id = 1 then [(2 : ℚ), 3] else [5, 7]) id).length =
          ([200402010000, 200402010001] : List Timestamp).length) ∧
      (∀ id ∈ ([1, 2] : List UserId),
        sliceSeries (demoCache.getValue id) 200402010000 200507010000 =
          withIndex [200402010000, 200402010001]
            ((fun id => if id = 1 then [(2 : ℚ), 3] else [5, 7]) id))) ∧
    (total_load demoCache [1, 2] (200402010000, 200507010000)).1 =
      Except.ok (withIndex [200402010000, 200402010001]
        (columnSums ([200402010000, 200402010001] : List Timestamp).length
          (([1, 2] : List UserId).map
            (fun id => if id = 1 then [(2 : ℚ), 3] else [5, 7]))))) :=
  ⟨⟨by decide, by decide,
    by
      intro id hid
      fin_cases hid <;> norm_num,
    by
      intro id hid
      fin_cases hid <;>
        norm_num [sliceSeries, UserLoads.getValue, demoCache, demoStore,
          UserLoads.init, withIndex, List.filter]⟩,
    (claim_C6_sum_and_permutation demoCache [1, 2] (200402010000, 200507010000)
      [200402010000, 200402010001]
      (fun id => if id = 1 then [(2 : ℚ), 3] else [5, 7])
      (by decide) (by decide)
      (by
        intro id hid
        fin_cases hid <;> norm_num)
      (by
        intro id hid
        fin_cases hid <;>
          norm_num [sliceSeries, UserLoads.getValue, demoCache, demoStore,
            UserLoads.init, withIndex, List.filter])).1⟩
